import Mathlib

/-!
Verification development for the LightBox / CosmicLED animation engine
(`CosmicLED.py`, the pattern scripts under `scripts/` and `animations/`,
and the fixed colour conversion in `LB_Interface_work/test_color_math.py`).

The engine is shallowly embedded: the mutable `CosmicLED` object becomes an
explicit `EngineState`, the NeoPixel strip becomes a pixel `Buffer` plus a
`FrameSink` trace of committed frames, and the per-frame animation functions
become explicit functions from a buffer and frame number to a new buffer
(fallible ones return `Except`).
-/

/-- An RGB triple as stored into the pixel buffer by the patterns. -/
abbrev Rgb := ℕ × ℕ × ℕ

/-- The pixel buffer (`self.pixels` contents). -/
abbrev Buffer := List Rgb

/-- The physical frame sink behind `neopixel.NeoPixel`: `show()` commits the
current buffer, `deinit()` releases the device.  We keep the trace of all
committed frames; a released sink accepts no further commits. -/
structure FrameSink where
  committed : List Buffer
  released : Bool
  deriving DecidableEq, Repr

/-- Model of `pixels.show()`: commit a frame to the sink (no-op once released). -/
def FrameSink.showFrame (k : FrameSink) (f : Buffer) : FrameSink :=
  if k.released then k else { k with committed := k.committed ++ [f] }

/-- Model of `pixels.deinit()`: release the sink. -/
def FrameSink.deinit (k : FrameSink) : FrameSink :=
  { k with released := true }

/-- The mutable state of the `CosmicLED` object that the claims are about:
`current_program`, the `current_program` and `frame_count` entries of
`self.stats`, the local `frame` counter of `run`, the `running` flag, the
pixel buffer, and the frame sink. -/
structure EngineState where
  currentProgram : String
  statsCurrentProgram : String
  frame : ℕ
  frameCount : ℕ
  running : Bool
  pixels : Buffer
  sink : FrameSink
  deriving DecidableEq, Repr

/-- A per-frame animation entry point (`animate(pixels, config, frame)` /
`cosmic_animation`): takes the pixel buffer and the frame number and either
returns the updated buffer or raises. -/
abbrev Anim := Buffer → ℕ → Except String Buffer

/-- The program registry `self.programs` (name → animate function). -/
abbrev Programs := List (String × Anim)

/-- Model of `CosmicLED.switch_program(program_name)`: if the name is a key of
`self.programs`, set `self.current_program` and
`self.stats["current_program"]` and return `True`; otherwise return `False`. -/
def switch_program (programs : Programs) (s : EngineState) (name : String) :
    EngineState × Bool :=
  if (programs.lookup name).isSome then
    ({ s with currentProgram := name, statsCurrentProgram := name }, true)
  else
    (s, false)

/-- The type `Config` models the `config.Config` object.  Modelled from the spec:
`config.py` is not among the sources, so all we rely on is that the config is
an attribute bag (Python `hasattr`/`setattr` semantics) whose numeric
attributes include the ones the engine reads (`BRIGHTNESS`, `GAMMA`,
`SPEED`, `LED_COUNT`, ...). -/
structure Config where
  fields : List (String × ℚ)
  deriving DecidableEq, Repr

/-- Python `hasattr(config, key)`. -/
def pyhasattr (c : Config) (key : String) : Bool :=
  (c.fields.lookup key).isSome

/-- Python `setattr(config, key, value)`: replace the attribute if present,
create it otherwise. -/
def pysetattr (c : Config) (key : String) (value : ℚ) : Config :=
  if pyhasattr c key then
    ⟨c.fields.map (fun kv => if kv.1 = key then (key, value) else kv)⟩
  else
    ⟨c.fields ++ [(key, value)]⟩

/-- Model of `CosmicLED.update_config(new_config)`: for each `(key, value)` item, set
the attribute when `hasattr(self.config, key)` holds, else skip it.  The
Python method returns `None`; the second component of the result is that
return value, i.e. whatever the method surfaces to its caller about rejected
fields — which is nothing (`none`). -/
def update_config (c : Config) (upd : List (String × ℚ)) :
    Config × Option (List String) :=
  (upd.foldl (fun acc kv => if pyhasattr acc kv.1 then pysetattr acc kv.1 kv.2 else acc) c,
   none)

/-- Lines 172–176 of `CosmicLED.run`: the frame-rate limiter.  With the
hard-coded `target_frame_time = 1 / 60`, compute `sleep_time = target -
frame_time` and sleep that long only when it is positive (otherwise the
sleep is skipped, i.e. the sleep duration is 0).  `frame_time` is the
measured duration of the iteration's render-and-commit work, passed here as
a parameter since wall-clock time is external to the embedding. -/
def frame_sleep (frame_time : ℚ) : ℚ :=
  let target_frame_time : ℚ := 1 / 60
  let sleep_time := target_frame_time - frame_time
  if sleep_time > 0 then sleep_time else 0

/-- Dictionary insertion with Python `dict` overwrite semantics
(`self.programs[name] = fn`): a later insert for an existing key replaces
the earlier binding. -/
def dictInsert (d : Programs) (kv : String × Anim) : Programs :=
  if (d.lookup kv.1).isSome then
    d.map (fun e => if e.1 = kv.1 then kv else e)
  else
    d ++ [kv]

/-- Model of `CosmicLED.load_programs`: register the built-in `cosmic_animation`
under the key `"cosmic"`, then register every external script exposing an
`animate` function (the external list is a parameter since the scripts
directory contents are dynamic; the built-in animation function is likewise
a parameter, its colour maths being irrelevant to registration). -/
def load_programs (builtin : Anim) (ext : Programs) : Programs :=
  ext.foldl dictInsert [("cosmic", builtin)]

/-- One iteration of the `while self.running` body of `CosmicLED.run`
(lines 145–170, the timing-only statements elided): invoke the current
program when its name is a key of `self.programs` (an exception from the
program propagates — the loop body does not catch it), then `show()` the
pixels, record `stats["frame_count"] = frame` and increment `frame`. -/
def loopIter (programs : Programs) (s : EngineState) : Except String EngineState :=
  match programs.lookup s.currentProgram with
  | some animateFn =>
    match animateFn s.pixels s.frame with
    | .ok px =>
      .ok { s with pixels := px,
                   sink := s.sink.showFrame px,
                   frameCount := s.frame,
                   frame := s.frame + 1 }
    | .error e => .error e
  | none =>
    .ok { s with sink := s.sink.showFrame s.pixels,
                 frameCount := s.frame,
                 frame := s.frame + 1 }

/-- The `while self.running` loop of `CosmicLED.run`, fuelled: stop when
`running` is false, when fuel runs out, or when an iteration raises (the
exception escapes the loop; only `KeyboardInterrupt` is caught by `run`). -/
def runLoop (programs : Programs) : ℕ → EngineState → EngineState
  | 0, s => s
  | n + 1, s =>
    if s.running then
      match loopIter programs s with
      | .ok s1 => runLoop programs n s1
      | .error _ => s
    else s

/-- Model of `CosmicLED.cleanup`: set `running` to `False`, `fill((0, 0, 0))` the
pixel buffer, `show()` it, then `deinit()` the strip — in that order. -/
def cleanup (s : EngineState) : EngineState :=
  let blank : Buffer := List.replicate s.pixels.length (0, 0, 0)
  { s with running := false,
           pixels := blank,
           sink := (s.sink.showFrame blank).deinit }

/-- Model of `CosmicLED.run`: the animation loop followed by the `finally:` clause —
`cleanup` runs however the loop terminates (normal exit, fuel exhaustion in
the embedding, `KeyboardInterrupt`, or a propagating exception). -/
def run (programs : Programs) (fuel : ℕ) (s : EngineState) : EngineState :=
  cleanup (runLoop programs fuel s)

/-- The pixel buffer after one loop iteration, when the iteration does not
raise. -/
def pixelsAfter (programs : Programs) (s : EngineState) : Option Buffer :=
  (loopIter programs s).toOption.map EngineState.pixels

/-- Model of `CosmicLED.gamma_correct(value, gamma)`: `255 * pow(value / 255, gamma)`.
Python's float `pow` is modelled over the reals (`Real.rpow`). -/
noncomputable def gamma_correct (value gamma : ℝ) : ℝ :=
  255 * (value / 255) ^ gamma

/-- Python `int(q)` on a float/rational: truncation toward zero. -/
def pyInt (q : ℚ) : ℤ :=
  if 0 ≤ q then ⌊q⌋ else -⌊-q⌋

/-- Python `a % b` on floats/rationals (for `b > 0`: the representative of
`a` modulo `b` in `[0, b)`). -/
def pymod (a b : ℚ) : ℚ :=
  a - b * ⌊a / b⌋

/-- The fixed HSV→RGB conversion of
`LB_Interface_work/test_color_math.py` (`hsv_to_rgb`, h in degrees): the
standard chroma construction `c = v*s`, `x = c*(1 - |(h/60) % 2 - 1|)`,
`m = v - c`, six 60° sectors, result `int((channel + m) * 255)`.
Exact rational arithmetic replaces Python floats. -/
def hsv_to_rgb (h s v : ℚ) : ℤ × ℤ × ℤ :=
  let h := pymod h 360
  let c := v * s
  let x := c * (1 - |pymod (h / 60) 2 - 1|)
  let m := v - c
  let rgb : ℚ × ℚ × ℚ :=
    if h < 60 then (c, x, 0)
    else if h < 120 then (x, c, 0)
    else if h < 180 then (0, c, x)
    else if h < 240 then (0, x, c)
    else if h < 300 then (x, 0, c)
    else (c, 0, x)
  (pyInt ((rgb.1 + m) * 255), pyInt ((rgb.2.1 + m) * 255), pyInt ((rgb.2.2 + m) * 255))

/-- Matrix geometry. Modelled from the spec: `config.py` (home of
`xy_to_index` / `index_to_xy`) is not among the sources; the spec gives the
geometry as a width, a height and a wiring topology flag. -/
structure Geometry where
  width : ℕ
  height : ℕ
  serpentine : Bool
  deriving DecidableEq, Repr

/-- Modelled from the spec: `config.xy_to_index(x, y)` is absent from the
sources.  Progressive wiring maps `(x, y)` to `y*width + x`; serpentine
wiring reverses odd rows: `y*width + (x if y even else width-1-x)`. -/
def xy_to_index (g : Geometry) (x y : ℕ) : ℕ :=
  if g.serpentine ∧ y % 2 = 1 then y * g.width + (g.width - 1 - x)
  else y * g.width + x

/-- Modelled from the spec: `config.index_to_xy(index)` is absent from the
sources.  The inverse of `xy_to_index`: row `index / width`, column
`index % width`, un-reversed on odd serpentine rows. -/
def index_to_xy (g : Geometry) (i : ℕ) : ℕ × ℕ :=
  let y := i / g.width
  let x0 := i % g.width
  if g.serpentine ∧ y % 2 = 1 then (g.width - 1 - x0, y) else (x0, y)

/-- Python list item assignment `l[i] = v` with an `int` index: in-range
indices (including negative wrap-around) write, anything else raises
`IndexError`. -/
def pySet (l : Buffer) (i : ℤ) (v : Rgb) : Except String Buffer :=
  if 0 ≤ i ∧ i < (l.length : ℤ) then .ok (l.set i.toNat v)
  else if -(l.length : ℤ) ≤ i ∧ i < 0 then .ok (l.set (i + l.length).toNat v)
  else .error "IndexError"

/-- The pixel-write skeleton of `animations/cosmic.py::animate`: for each
`(x, y)` of the matrix, compute `idx = config.xy_to_index(x, y)` and assign
`pixels[idx]` only when `0 <= idx < len(pixels)`.  The coordinate mapping
and the floating-point colour computation are parameters (`xyto`, `color`);
the guard and the write are the source's. -/
def cosmic_animate (xyto : ℕ → ℕ → ℤ) (color : ℕ → ℕ → Rgb)
    (width height : ℕ) (pixels : Buffer) : Buffer :=
  (List.range height).foldl (fun px y =>
    (List.range width).foldl (fun px x =>
      let idx := xyto x y
      if 0 ≤ idx ∧ idx < (px.length : ℤ) then px.set idx.toNat (color x y)
      else px) px) pixels

/-- The buffer indices `animations/cosmic.py::animate` writes to, for a
buffer of length `len0`. -/
def cosmic_writes (xyto : ℕ → ℕ → ℤ) (width height len0 : ℕ) : List ℤ :=
  (List.range height).flatMap (fun y =>
    (List.range width).filterMap (fun x =>
      let idx := xyto x y
      if 0 ≤ idx ∧ idx < (len0 : ℤ) then some idx else none))

/-- The pixel-write skeleton of `scripts/waves.py::animate`: for each
`(x, y)`, `i = config.xy_to_index(x, y)`; `if i is None: continue`; then
`pixels[i] = ...` with no range check.  The coordinate mapping and the
floating-point colour computation are parameters; the sentinel check and
the unguarded write are the source's. -/
def waves_animate (xyto : ℕ → ℕ → Option ℤ) (color : ℕ → ℕ → Rgb)
    (width height : ℕ) (pixels : Buffer) : Except String Buffer :=
  (List.range height).foldlM (fun px y =>
    (List.range width).foldlM (fun px x =>
      match xyto x y with
      | none => .ok px
      | some i => pySet px i (color x y)) px) pixels


/-- Replacing the binding of key `k` in an association list: lookup at `k`
returns the new value when `k` was bound. -/
theorem lookup_replace_self (l : List (String × ℚ)) (k : String) (v : ℚ)
    (h : (l.lookup k).isSome = true) :
    (l.map (fun kv => if kv.1 = k then (k, v) else kv)).lookup k = some v := by
  induction l with
  | nil => simp at h
  | cons hd tl ih =>
    obtain ⟨a, b⟩ := hd
    rw [List.map_cons]
    by_cases hk : a = k
    · subst hk
      simp [List.lookup_cons]
    · have h1 : (k == a) = false := beq_eq_false_iff_ne.2 (Ne.symm hk)
      rw [List.lookup_cons, h1] at h
      rw [if_neg hk, List.lookup_cons, h1]
      exact ih h

/-- Replacing the binding of key `k` in an association list: lookup at any
other key is unchanged. -/
theorem lookup_replace_other (l : List (String × ℚ)) (k : String) (v : ℚ)
    (j : String) (h : j ≠ k) :
    (l.map (fun kv => if kv.1 = k then (k, v) else kv)).lookup j = l.lookup j := by
  induction l with
  | nil => simp
  | cons hd tl ih =>
    obtain ⟨a, b⟩ := hd
    rw [List.map_cons]
    by_cases hk : a = k
    · subst hk
      have h1 : (j == a) = false := beq_eq_false_iff_ne.2 h
      rw [if_pos rfl, List.lookup_cons, List.lookup_cons, h1]
      exact ih
    · rw [if_neg hk, List.lookup_cons, List.lookup_cons]
      cases hj : (j == a) <;> simp [hj, ih]

/-- Reading back after `pysetattr` on an existing attribute gives
the new value. -/
theorem pysetattr_lookup_self (c : Config) (k : String) (v : ℚ)
    (h : pyhasattr c k = true) :
    (pysetattr c k v).fields.lookup k = some v := by
  unfold pysetattr
  rw [if_pos h]
  exact lookup_replace_self c.fields k v h

/-- Meanwhile `pysetattr` leaves every other attribute unchanged. -/
theorem pysetattr_lookup_other (c : Config) (k : String) (v : ℚ) (j : String)
    (h : j ≠ k) :
    (pysetattr c k v).fields.lookup j = c.fields.lookup j := by
  unfold pysetattr
  by_cases hc : pyhasattr c k
  · rw [if_pos hc]
    exact lookup_replace_other c.fields k v j h
  · rw [if_neg hc]
    rw [List.lookup_append]
    cases hj : c.fields.lookup j with
    | some w => simp
    | none =>
      simp [List.lookup, show (j == k) = false from beq_eq_false_iff_ne.2 h]

/-- C9: in each iteration of the running loop, the time slept after
committing the frame equals `max(0, target_interval - elapsed)` with the
default 60 Hz target interval `1/60`. -/
theorem frame_sleep_eq_max (frame_time : ℚ) :
    frame_sleep frame_time = max 0 (1 / 60 - frame_time) := by
  show (if (1 : ℚ) / 60 - frame_time > 0 then (1 : ℚ) / 60 - frame_time else 0) =
    max 0 (1 / 60 - frame_time)
  rcases le_or_lt ((1 : ℚ) / 60 - frame_time) 0 with h | h
  · rw [if_neg (not_lt.2 h), max_eq_left h]
  · rw [if_pos h, max_eq_right h.le]

/-- C10: `switch_program(name)` returns `True` and sets the active program
and the `current_program` stats field to `name` exactly when `name` is a key
of the registry; otherwise it returns `False` and the state is completely
unchanged. -/
theorem switch_program_iff (P : Programs) (s : EngineState) (n : String) :
    ((switch_program P s n).2 = true ↔ (P.lookup n).isSome = true) ∧
    ((P.lookup n).isSome = true →
      switch_program P s n =
        ({ s with currentProgram := n, statsCurrentProgram := n }, true)) ∧
    ((P.lookup n).isSome = false → switch_program P s n = (s, false)) := by
  unfold switch_program
  by_cases h : (P.lookup n).isSome
  · rw [if_pos h]
    exact ⟨iff_of_true rfl h, fun _ => rfl, fun hf => by rw [h] at hf; cases hf⟩
  · rw [if_neg h]
    have h1 : (P.lookup n).isSome = false := Bool.eq_false_iff.mpr h
    refine ⟨iff_of_false Bool.false_ne_true h, ?_, fun _ => rfl⟩
    intro ht
    rw [h1] at ht
    cases ht

/-- A sample one-pixel engine state for concrete evaluations. -/
def s0 : EngineState :=
  { currentProgram := "cosmic", statsCurrentProgram := "cosmic",
    frame := 0, frameCount := 0, running := true,
    pixels := [(9, 9, 9)], sink := ⟨[], false⟩ }

/-- A sample registry holding only the built-in program. -/
def P0 : Programs := [("cosmic", fun px _ => Except.ok px)]

/-- Witness for C10: switching to an unregistered name concretely returns
`False` and leaves the state unchanged. -/
theorem switch_program_iff_w : switch_program P0 s0 "nope" = (s0, false) :=
  (switch_program_iff P0 s0 "nope").2.2 (by decide)

/-- A sample configuration (the attributes the engine reads). -/
def cfg0 : Config :=
  ⟨[("BRIGHTNESS", 1/2), ("GAMMA", 22/10), ("SPEED", 1), ("LED_COUNT", 100)]⟩

/-- C5 counterexample: an update with the unknown field `"BOGUS"` and the
valid field `"BRIGHTNESS"` does change the valid field, but
`update_config` returns `None` — it does not report `["BOGUS"]` (or
anything else) back to the caller. -/
theorem update_config_no_report_cex :
    (update_config cfg0 [("BOGUS", 7), ("BRIGHTNESS", 9/10)]).2 = none ∧
    (update_config cfg0 [("BOGUS", 7), ("BRIGHTNESS", 9/10)]).2 ≠ some ["BOGUS"] ∧
    (update_config cfg0
      [("BOGUS", 7), ("BRIGHTNESS", 9/10)]).1.fields.lookup "BRIGHTNESS" =
      some (9/10) := by
  exact ⟨rfl, by simp [update_config],
    pysetattr_lookup_self cfg0 "BRIGHTNESS" (9/10) rfl⟩

/-- C5 (amended): an update holding one invalid and one valid field applies
the valid field, leaves every other attribute unchanged, and is not fatal —
but the invalid field is silently ignored: the method, returning `None`,
reports nothing back to the caller. -/
theorem update_config_invalid_field (c : Config) (kBad kGood : String)
    (vBad vGood : ℚ) (hBad : pyhasattr c kBad = false)
    (hGood : pyhasattr c kGood = true) :
    (update_config c [(kBad, vBad), (kGood, vGood)]).1.fields.lookup kGood =
      some vGood ∧
    (∀ j, j ≠ kGood →
      (update_config c [(kBad, vBad), (kGood, vGood)]).1.fields.lookup j =
        c.fields.lookup j) ∧
    (update_config c [(kBad, vBad), (kGood, vGood)]).2 = none := by
  unfold update_config
  simp only [List.foldl_cons, List.foldl_nil, hBad, Bool.false_eq_true, if_false,
    hGood, if_true]
  exact ⟨pysetattr_lookup_self c kGood vGood hGood,
    fun j hj => pysetattr_lookup_other c kGood vGood j hj, trivial⟩

/-- Witness for C5 (amended): concrete instance of the amended behaviour. -/
theorem update_config_invalid_field_w :
    (update_config cfg0
      [("BOGUS", 7), ("BRIGHTNESS", 9/10)]).1.fields.lookup "BRIGHTNESS" =
      some (9/10) :=
  (update_config_invalid_field cfg0 "BOGUS" "BRIGHTNESS" 7 (9/10) rfl rfl).1

/-- C6: for any fixed `gamma > 0`, `gamma_correct` is monotonically
non-decreasing on `[0, 255]`, `gamma_correct 0 gamma = 0`,
`gamma_correct 255 1 = 255`, and its value on `[0, 255]` stays in
`[0, 255]`. -/
theorem gamma_correct_props (gamma : ℝ) (hg : 0 < gamma) :
    (∀ a b : ℝ, 0 ≤ a → a ≤ b → b ≤ 255 →
      gamma_correct a gamma ≤ gamma_correct b gamma) ∧
    gamma_correct 0 gamma = 0 ∧
    gamma_correct 255 1 = 255 ∧
    (∀ c : ℝ, 0 ≤ c → c ≤ 255 →
      0 ≤ gamma_correct c gamma ∧ gamma_correct c gamma ≤ 255) := by
  refine ⟨?_, ?_, ?_, ?_⟩
  · intro a b ha hab _
    unfold gamma_correct
    have h1 : (0 : ℝ) ≤ a / 255 := by positivity
    have h2 : a / 255 ≤ b / 255 := by gcongr
    have h3 := Real.rpow_le_rpow h1 h2 hg.le
    nlinarith [h3]
  · unfold gamma_correct
    rw [zero_div, Real.zero_rpow (ne_of_gt hg), mul_zero]
  · unfold gamma_correct
    rw [div_self (by norm_num : (255 : ℝ) ≠ 0), Real.one_rpow, mul_one]
  · intro c hc hc255
    unfold gamma_correct
    have h1 : (0 : ℝ) ≤ c / 255 := by positivity
    have h2 : c / 255 ≤ 1 := by
      rw [div_le_one (by norm_num : (0 : ℝ) < 255)]
      exact hc255
    have h3 : (0 : ℝ) ≤ (c / 255) ^ gamma := Real.rpow_nonneg h1 gamma
    have h4 : (c / 255) ^ gamma ≤ 1 := Real.rpow_le_one h1 h2 hg.le
    constructor
    · positivity
    · nlinarith [h4]

/-- Witness for C6: concrete endpoint evaluations through the theorem. -/
theorem gamma_correct_props_w :
    gamma_correct 0 2 = 0 ∧ gamma_correct 255 1 = 255 :=
  ⟨(gamma_correct_props 2 two_pos).2.1, (gamma_correct_props 1 one_pos).2.2.1⟩

/-- Decomposition of a row-major index: dividing `y*w + r` by `w` recovers
the row and the remainder, for `r < w`. -/
theorem row_decomp (w y r : ℕ) (hw : 0 < w) (hr : r < w) :
    (y * w + r) / w = y ∧ (y * w + r) % w = r := by
  constructor
  · rw [mul_comm, Nat.mul_add_div hw, Nat.div_eq_of_lt hr, Nat.add_zero]
  · rw [Nat.mul_add_mod', Nat.mod_eq_of_lt hr]

/-- A row-major index built from an in-range row and column is below the
pixel count. -/
theorem row_bound (w h y r : ℕ) (hy : y < h) (hr : r < w) :
    y * w + r < w * h := by
  calc y * w + r < y * w + w := by omega
  _ = (y + 1) * w := by ring
  _ ≤ h * w := Nat.mul_le_mul_right w hy
  _ = w * h := mul_comm h w

/-- C4: for every geometry and both wiring topologies, `xy_to_index` and
`index_to_xy` are mutually inverse total bijections between
`[0,width) × [0,height)` and `[0, width*height)`. -/
theorem xy_index_bijection (g : Geometry) :
    (∀ x y, x < g.width → y < g.height →
      xy_to_index g x y < g.width * g.height ∧
      index_to_xy g (xy_to_index g x y) = (x, y)) ∧
    (∀ i, i < g.width * g.height →
      (index_to_xy g i).1 < g.width ∧ (index_to_xy g i).2 < g.height ∧
      xy_to_index g (index_to_xy g i).1 (index_to_xy g i).2 = i) := by
  constructor
  · intro x y hx hy
    have hw : 0 < g.width := Nat.pos_of_ne_zero (by omega)
    by_cases c : g.serpentine = true ∧ y % 2 = 1
    · have hr : g.width - 1 - x < g.width := by omega
      have hd := row_decomp g.width y (g.width - 1 - x) hw hr
      rw [xy_to_index, if_pos c]
      refine ⟨row_bound _ _ _ _ hy hr, ?_⟩
      rw [index_to_xy]
      simp only [hd.1, hd.2]
      rw [if_pos c]
      have h1 : g.width - 1 - (g.width - 1 - x) = x := by omega
      rw [h1]
    · have hd := row_decomp g.width y x hw hx
      rw [xy_to_index, if_neg c]
      refine ⟨row_bound _ _ _ _ hy hx, ?_⟩
      rw [index_to_xy]
      simp only [hd.1, hd.2]
      rw [if_neg c]
  · intro i hi
    have hw : 0 < g.width := by
      rcases Nat.eq_zero_or_pos g.width with h0 | h0
      · rw [h0] at hi; omega
      · exact h0
    have hx0 : i % g.width < g.width := Nat.mod_lt _ hw
    have hi2 : i < g.height * g.width := by rw [mul_comm]; exact hi
    have hy : i / g.width < g.height := (Nat.div_lt_iff_lt_mul hw).mpr hi2
    by_cases c : g.serpentine = true ∧ (i / g.width) % 2 = 1
    · simp only [index_to_xy]
      rw [if_pos c]
      dsimp only
      refine ⟨by omega, hy, ?_⟩
      rw [xy_to_index, if_pos c]
      have h1 : g.width - 1 - (g.width - 1 - i % g.width) = i % g.width := by omega
      rw [h1, mul_comm]
      exact Nat.div_add_mod i g.width
    · simp only [index_to_xy]
      rw [if_neg c]
      dsimp only
      refine ⟨hx0, hy, ?_⟩
      rw [xy_to_index, if_neg c]
      rw [mul_comm]
      exact Nat.div_add_mod i g.width

/-- Witness for C4: a concrete serpentine round trip on a 4×3 matrix. -/
theorem xy_index_bijection_w :
    index_to_xy ⟨4, 3, true⟩ (xy_to_index ⟨4, 3, true⟩ 2 1) = (2, 1) :=
  ((xy_index_bijection ⟨4, 3, true⟩).1 2 1 (by decide) (by decide)).2

/-- Python `%` with a positive modulus is non-negative. -/
theorem pymod_nonneg (a b : ℚ) (hb : 0 < b) : 0 ≤ pymod a b := by
  unfold pymod
  have h1 : (⌊a / b⌋ : ℚ) ≤ a / b := Int.floor_le _
  have h2 : b * (⌊a / b⌋ : ℚ) ≤ b * (a / b) := by
    exact mul_le_mul_of_nonneg_left h1 hb.le
  rw [mul_div_cancel₀ a (ne_of_gt hb)] at h2
  linarith

/-- Python `%` with a positive modulus is below the modulus. -/
theorem pymod_lt (a b : ℚ) (hb : 0 < b) : pymod a b < b := by
  unfold pymod
  have h1 : a / b < ⌊a / b⌋ + 1 := Int.lt_floor_add_one _
  have h2 : b * (a / b) < b * ((⌊a / b⌋ : ℚ) + 1) := by
    exact mul_lt_mul_of_pos_left h1 hb
  rw [mul_div_cancel₀ a (ne_of_gt hb)] at h2
  nlinarith

/-- Python `a % b` fixes arguments already in `[0, b)`. -/
theorem pymod_eq_self (a b : ℚ) (h0 : 0 ≤ a) (hab : a < b) (hb : 0 < b) :
    pymod a b = a := by
  unfold pymod
  have hfl : ⌊a / b⌋ = 0 := by
    rw [Int.floor_eq_zero_iff]
    constructor
    · positivity
    · rw [div_lt_one hb] at *
      · exact hab
  rw [hfl]
  push_cast
  ring

/-- Python `int()` keeps `[0, 255]` rationals inside `[0, 255]`. -/
theorem pyInt_mem (q : ℚ) (h0 : 0 ≤ q) (h255 : q ≤ 255) :
    0 ≤ pyInt q ∧ pyInt q ≤ 255 := by
  unfold pyInt
  rw [if_pos h0]
  constructor
  · exact Int.floor_nonneg.mpr h0
  · have := Int.floor_le_floor h255
    simpa using this

/-- A channel `int((q + m) * 255)` with `0 ≤ q`, `0 ≤ m`, `q + m ≤ 1` lands in `[0, 255]`. -/
theorem comp_range (q m : ℚ) (hq0 : 0 ≤ q) (hm0 : 0 ≤ m) (hqm : q + m ≤ 1) :
    0 ≤ pyInt ((q + m) * 255) ∧ pyInt ((q + m) * 255) ≤ 255 := by
  apply pyInt_mem
  · positivity
  · nlinarith

set_option maxHeartbeats 1000000 in
/-- C3: for `h ∈ [0, 360)`, `s, v ∈ [0, 1]`, every component of
`hsv_to_rgb h s v` lies within `[0, 255]`: no negative or out-of-range
channel is produced. -/
theorem hsv_to_rgb_range (h s v : ℚ) (hh0 : 0 ≤ h) (hh : h < 360)
    (hs0 : 0 ≤ s) (hs1 : s ≤ 1) (hv0 : 0 ≤ v) (hv1 : v ≤ 1) :
    (0 ≤ (hsv_to_rgb h s v).1 ∧ (hsv_to_rgb h s v).1 ≤ 255) ∧
    (0 ≤ (hsv_to_rgb h s v).2.1 ∧ (hsv_to_rgb h s v).2.1 ≤ 255) ∧
    (0 ≤ (hsv_to_rgb h s v).2.2 ∧ (hsv_to_rgb h s v).2.2 ≤ 255) := by
  have hmod : pymod h 360 = h := pymod_eq_self h 360 hh0 hh (by norm_num)
  have hu0 : 0 ≤ pymod (h / 60) 2 := pymod_nonneg _ _ (by norm_num)
  have hu2 : pymod (h / 60) 2 < 2 := pymod_lt _ _ (by norm_num)
  have habs : |pymod (h / 60) 2 - 1| ≤ 1 := by
    rw [abs_le]
    constructor <;> linarith
  have habs0 : 0 ≤ |pymod (h / 60) 2 - 1| := abs_nonneg _
  have hc0 : 0 ≤ v * s := mul_nonneg hv0 hs0
  have hcv : v * s ≤ v := by nlinarith
  have hm0 : 0 ≤ v - v * s := by linarith
  have ht0 : 0 ≤ 1 - |pymod (h / 60) 2 - 1| := by linarith
  have ht1 : 1 - |pymod (h / 60) 2 - 1| ≤ 1 := by linarith
  have hx0 : 0 ≤ v * s * (1 - |pymod (h / 60) 2 - 1|) := mul_nonneg hc0 ht0
  have hxc : v * s * (1 - |pymod (h / 60) 2 - 1|) ≤ v * s := by nlinarith
  simp only [hsv_to_rgb, hmod]
  split_ifs with h1 h2 h3 h4 h5
  · exact ⟨comp_range _ _ hc0 hm0 (by linarith), comp_range _ _ hx0 hm0 (by linarith),
      comp_range _ _ (le_refl 0) hm0 (by linarith)⟩
  · exact ⟨comp_range _ _ hx0 hm0 (by linarith), comp_range _ _ hc0 hm0 (by linarith),
      comp_range _ _ (le_refl 0) hm0 (by linarith)⟩
  · exact ⟨comp_range _ _ (le_refl 0) hm0 (by linarith), comp_range _ _ hc0 hm0 (by linarith),
      comp_range _ _ hx0 hm0 (by linarith)⟩
  · exact ⟨comp_range _ _ (le_refl 0) hm0 (by linarith), comp_range _ _ hx0 hm0 (by linarith),
      comp_range _ _ hc0 hm0 (by linarith)⟩
  · exact ⟨comp_range _ _ hx0 hm0 (by linarith), comp_range _ _ (le_refl 0) hm0 (by linarith),
      comp_range _ _ hc0 hm0 (by linarith)⟩
  · exact ⟨comp_range _ _ hc0 hm0 (by linarith), comp_range _ _ (le_refl 0) hm0 (by linarith),
      comp_range _ _ hx0 hm0 (by linarith)⟩

/-- Witness for C3: concrete channel bounds at `h = 30`, `s = 1`, `v = 1`. -/
theorem hsv_to_rgb_range_w :
    0 ≤ (hsv_to_rgb 30 1 1).1 ∧ (hsv_to_rgb 30 1 1).1 ≤ 255 :=
  (hsv_to_rgb_range 30 1 1 (by norm_num) (by norm_num) (by norm_num)
    (by norm_num) (by norm_num) (by norm_num)).1

/-- Committing via `show()` never changes whether the sink is released. -/
theorem showFrame_released (k : FrameSink) (f : Buffer) :
    (k.showFrame f).released = k.released := by
  unfold FrameSink.showFrame
  split_ifs <;> rfl

/-- A successful loop iteration never releases the sink. -/
theorem loopIter_released (P : Programs) (s s1 : EngineState)
    (h : loopIter P s = .ok s1) : s1.sink.released = s.sink.released := by
  unfold loopIter at h
  cases hl : P.lookup s.currentProgram with
  | none =>
    rw [hl] at h
    cases h
    exact showFrame_released _ _
  | some f =>
    rw [hl] at h
    dsimp only at h
    cases hf : f s.pixels s.frame with
    | ok px =>
      rw [hf] at h
      cases h
      exact showFrame_released _ _
    | error e =>
      rw [hf] at h
      cases h

/-- The animation loop never releases the sink (only `cleanup` does). -/
theorem runLoop_released (P : Programs) (fuel : ℕ) (s : EngineState)
    (h : s.sink.released = false) :
    (runLoop P fuel s).sink.released = false := by
  induction fuel generalizing s with
  | zero => exact h
  | succ n ih =>
    rw [runLoop]
    by_cases hr : s.running = true
    · rw [if_pos hr]
      cases hit : loopIter P s with
      | ok s1 =>
        exact ih s1 ((loopIter_released P s s1 hit).trans h)
      | error e => exact h
    · rw [if_neg hr]
      exact h

/-- C8: however `run` terminates, the `finally` clause blanks the buffer and
commits one final all-zero frame before releasing the sink: the last frame
ever committed is all zeros and the sink ends up released. -/
theorem run_final_frame_blank (P : Programs) (fuel : ℕ) (s : EngineState)
    (h : s.sink.released = false) :
    ((run P fuel s).sink.committed).getLast? =
      some (List.replicate (run P fuel s).pixels.length (0, 0, 0)) ∧
    (run P fuel s).sink.released = true := by
  have ht : (runLoop P fuel s).sink.released = false := runLoop_released P fuel s h
  unfold run
  simp only [cleanup, FrameSink.showFrame, FrameSink.deinit, ht, Bool.false_eq_true,
    if_false]
  refine ⟨?_, trivial⟩
  simp [List.getLast?_concat]

/-- Witness for C8: the blank final commit on a concrete run. -/
theorem run_final_frame_blank_w :
    ((run P0 2 s0).sink.committed).getLast? =
      some (List.replicate (run P0 2 s0).pixels.length (0, 0, 0)) :=
  (run_final_frame_blank P0 2 s0 rfl).1

/-- A pattern that raises on every invocation. -/
def badAnim : Anim := fun _ _ => .error "boom"

/-- A registry holding only the always-raising pattern. -/
def badP : Programs := [("bad", badAnim)]

/-- A state whose active pattern is the always-raising one. -/
def sBad : EngineState :=
  { currentProgram := "bad", statsCurrentProgram := "bad",
    frame := 0, frameCount := 0, running := true,
    pixels := [(9, 9, 9)], sink := ⟨[], false⟩ }

/-- C1 counterexample: with an always-raising active pattern and `N = 3`
frames of fuel, the loop does not keep running — the exception escapes on
the first frame, `cleanup` runs, `frame_count` stays at 0 (it has not
advanced by 3) and no fallback is substituted (the active name is still
`"bad"`, not `"cosmic"`). -/
theorem pattern_exception_cex :
    (run badP 3 sBad).frameCount = 0 ∧
    (run badP 3 sBad).frameCount ≠ sBad.frameCount + 3 ∧
    (run badP 3 sBad).currentProgram = "bad" ∧
    (run badP 3 sBad).currentProgram ≠ "cosmic" ∧
    (run badP 3 sBad).running = false := by
  refine ⟨rfl, by decide, rfl, by decide, rfl⟩

/-- C1 (amended): a pattern that raises during its per-frame invocation
terminates the Scheduler: the exception is not caught by the loop body (only
`KeyboardInterrupt` is, outside the loop), the `finally` clause runs
`cleanup`, no fallback is substituted, and `frame_count` does not advance. -/
theorem pattern_exception_terminates (P : Programs) (s : EngineState)
    (f : Anim) (fuel : ℕ) (hrun : s.running = true)
    (hf : P.lookup s.currentProgram = some f)
    (herr : ∀ px n, ∃ e, f px n = Except.error e) (hfuel : 0 < fuel) :
    run P fuel s = cleanup s ∧
    (run P fuel s).frameCount = s.frameCount ∧
    (run P fuel s).currentProgram = s.currentProgram ∧
    (run P fuel s).running = false := by
  have hloop : runLoop P fuel s = s := by
    obtain ⟨n, rfl⟩ : ∃ n, fuel = n + 1 := ⟨fuel - 1, by omega⟩
    rw [runLoop, if_pos hrun]
    obtain ⟨e, he⟩ := herr s.pixels s.frame
    unfold loopIter
    rw [hf]
    dsimp only
    rw [he]
  unfold run
  rw [hloop]
  exact ⟨rfl, rfl, rfl, rfl⟩

/-- Witness for C1 (amended): the concrete always-raising run. -/
theorem pattern_exception_terminates_w :
    run badP 3 sBad = cleanup sBad :=
  (pattern_exception_terminates badP sBad badAnim 3 rfl rfl
    (fun _ _ => ⟨"boom", rfl⟩) (by decide)).1

/-- Replacing the binding of a key in a registry keeps every key's
presence unchanged. -/
theorem lookup_isSome_replace (l : Programs) (kv : String × Anim) (k : String) :
    ((l.map (fun e => if e.1 = kv.1 then kv else e)).lookup k).isSome =
      (l.lookup k).isSome := by
  induction l with
  | nil => simp
  | cons hd tl ih =>
    rw [List.map_cons]
    by_cases hk : hd.1 = kv.1
    · rw [if_pos hk, List.lookup_cons, List.lookup_cons]
      cases hj : (k == kv.1)
      · have hj2 : (k == hd.1) = false := by
          rw [hk]
          exact hj
        rw [hj2]
        exact ih
      · have hj2 : (k == hd.1) = true := by
          rw [hk]
          exact hj
        rw [hj2]
        rfl
    · rw [if_neg hk, List.lookup_cons, List.lookup_cons]
      cases hj : (k == hd.1)
      · exact ih
      · rfl

/-- Inserting `dict[name] = fn` keeps every already-present key present. -/
theorem dictInsert_preserves (d : Programs) (kv : String × Anim) (k : String)
    (h : (d.lookup k).isSome = true) :
    ((dictInsert d kv).lookup k).isSome = true := by
  unfold dictInsert
  by_cases hc : (d.lookup kv.1).isSome
  · rw [if_pos hc, lookup_isSome_replace]
    exact h
  · rw [if_neg hc, List.lookup_append]
    cases hd : d.lookup k with
    | some f => rfl
    | none => rw [hd] at h; cases h

/-- Folding registrations over a registry keeps every key present. -/
theorem foldl_dictInsert_preserves (ext : Programs) (k : String) :
    ∀ d : Programs, (d.lookup k).isSome = true →
      ((ext.foldl dictInsert d).lookup k).isSome = true := by
  induction ext with
  | nil => exact fun d h => h
  | cons hd tl ih =>
    intro d h
    rw [List.foldl_cons]
    exact ih (dictInsert d hd) (dictInsert_preserves d hd k h)

/-- An unknown-name state: the active pattern is not registered. -/
def sGhost : EngineState :=
  { currentProgram := "ghost", statsCurrentProgram := "ghost",
    frame := 0, frameCount := 0, running := true,
    pixels := [(9, 9, 9)], sink := ⟨[], false⟩ }

/-- A registry whose fallback renders the buffer `[(1, 2, 3)]`. -/
def fallbackP : Programs := [("cosmic", fun _ _ => Except.ok [(1, 2, 3)])]

/-- C2 counterexample: the fallback is registered and would render
`[(1, 2, 3)]`, the active name `"ghost"` is unknown — yet the frame is not
rendered with the fallback: the buffer stays `[(9, 9, 9)]`, because line 149
of `run` simply skips the pattern invocation. -/
theorem unknown_program_cex :
    (fallbackP.lookup "cosmic").isSome = true ∧
    (fallbackP.lookup sGhost.currentProgram).isSome = false ∧
    Option.map (fun f => f sGhost.pixels sGhost.frame) (fallbackP.lookup "cosmic") =
      some (Except.ok [(1, 2, 3)]) ∧
    pixelsAfter fallbackP sGhost = some [(9, 9, 9)] ∧
    ([(9, 9, 9)] : Buffer) ≠ [(1, 2, 3)] := by
  refine ⟨rfl, rfl, rfl, rfl, by decide⟩

/-- C2 (amended): when the configured active name is not a registry key, the
Scheduler skips the pattern invocation for that frame — the pixel buffer is
left unchanged and its previous contents are re-committed, the counters
still advance, and no fallback is substituted into the frame (even though
`load_programs` does keep `"cosmic"` always registered). -/
theorem unknown_program_skips (P : Programs) (s : EngineState)
    (h : P.lookup s.currentProgram = none) :
    loopIter P s = Except.ok { s with sink := s.sink.showFrame s.pixels,
                                      frameCount := s.frame,
                                      frame := s.frame + 1 } ∧
    pixelsAfter P s = some s.pixels ∧
    ∀ (builtin : Anim) (ext : Programs),
      ((load_programs builtin ext).lookup "cosmic").isSome = true := by
  have hiter : loopIter P s =
      Except.ok { s with sink := s.sink.showFrame s.pixels,
                         frameCount := s.frame, frame := s.frame + 1 } := by
    unfold loopIter
    rw [h]
  refine ⟨hiter, ?_, ?_⟩
  · unfold pixelsAfter
    rw [hiter]
    rfl
  · intro builtin ext
    exact foldl_dictInsert_preserves ext "cosmic" [("cosmic", builtin)] rfl

/-- Witness for C2 (amended): concrete skip with the unknown name
`"ghost"`. -/
theorem unknown_program_skips_w :
    pixelsAfter fallbackP sGhost = some sGhost.pixels :=
  (unknown_program_skips fallbackP sGhost rfl).2.1

/-- C7 counterexample: `scripts/waves.py` guards only the `None` sentinel.
On a 1×1 matrix with a one-pixel buffer, a mapping that returns the
out-of-bounds integer index 5 makes the frame crash with `IndexError`
instead of being skipped. -/
theorem waves_oob_cex :
    waves_animate (fun _ _ => some 5) (fun _ _ => (7, 7, 7)) 1 1 [(0, 0, 0)] =
      Except.error "IndexError" := by
  rfl

/-- A fold whose step always succeeds with an unchanged accumulator
succeeds with the unchanged accumulator. -/
theorem foldlM_const_ok (f : Buffer → ℕ → Except String Buffer)
    (hf : ∀ px x, f px x = Except.ok px) (l : List ℕ) (px : Buffer) :
    l.foldlM f px = Except.ok px := by
  induction l generalizing px with
  | nil => rfl
  | cons a t ih =>
    rw [List.foldlM_cons, hf]
    exact ih px

/-- C7 (amended): `animations/cosmic.py` satisfies the stated guarantee —
its `0 <= idx < len(pixels)` guard means every index it writes lies in
`[0, len)`, skipping out-of-range integer results.  `scripts/waves.py`
guards only the `None` sentinel: an all-`None` mapping writes nothing and
succeeds, but an out-of-range integer result is passed straight to the
buffer write (see the counterexample) rather than being skipped. -/
theorem pattern_write_guards :
    (∀ (xyto : ℕ → ℕ → ℤ) (w h len0 : ℕ) (i : ℤ),
      i ∈ cosmic_writes xyto w h len0 → 0 ≤ i ∧ i < (len0 : ℤ)) ∧
    (∀ (color : ℕ → ℕ → Rgb) (w h : ℕ) (px : Buffer),
      waves_animate (fun _ _ => none) color w h px = Except.ok px) := by
  constructor
  · intro xyto w h len0 i hi
    unfold cosmic_writes at hi
    rw [List.mem_flatMap] at hi
    obtain ⟨y, _, hy⟩ := hi
    rw [List.mem_filterMap] at hy
    obtain ⟨x, _, hx⟩ := hy
    by_cases hc : 0 ≤ xyto x y ∧ xyto x y < (len0 : ℤ)
    · rw [if_pos hc] at hx
      cases hx
      exact hc
    · rw [if_neg hc] at hx
      cases hx
  · intro color w h px
    unfold waves_animate
    exact foldlM_const_ok _ (fun px y => foldlM_const_ok _ (fun px x => rfl) _ px) _ px

/-- Witness for C7 (amended): a concrete in-range write index of the cosmic
pattern. -/
theorem pattern_write_guards_w :
    (0 : ℤ) ≤ 0 ∧ (0 : ℤ) < ((1 : ℕ) : ℤ) :=
  pattern_write_guards.1 (fun _ _ => 0) 1 1 1 0 (by decide)
